import Mathlib

/-!
Shallow embedding of `src/stackoverflow.py`: a client of a paginated remote
search API that retrieves the top-N unanswered questions by view count.

Modelling conventions:
* A JSON question object is a `Question` record.  The server-side response
  filter (src line 27) narrows the payload to the fields
  `answer_count, link, view_count, creation_date, question_id`, so those are
  the fields of the record.  `answer_count` is `Option Int` because the code
  accesses it with `question.pop("answer_count", 0)`, i.e. it may be absent;
  `view_count` is accessed with `q["view_count"]` (`KeyError` if absent), so
  it is a total field.
* Python dict mutation (`pop`) is modelled by returning the updated record.
* The HTTP layer is an oracle `pages : Nat → HttpResponse` giving the decoded
  response for each page number; `await`/`asyncio.gather` become sequential
  evaluation in page-number order (the fold in src lines 121-125 consumes
  `gather`'s results in that order).
* A raised exception becomes `Except.error` carrying a `FetchError`.
-/

/-- One question record, with exactly the fields selected by the client's
response filter (src lines 24-27).  `answer_count` may be absent. -/
structure Question where
  answer_count : Option Int
  view_count : Int
  link : String
  creation_date : Int
  question_id : Nat
deriving DecidableEq, Repr

/-- Decoded JSON response body.  `.get` with a default is modelled by
`Option.getD` (src lines 54, 55, 61, 68). -/
structure ResponseBody where
  error_message : Option String
  error_id : Option Int
  items : Option (List Question)
  total : Option Nat
deriving DecidableEq, Repr

/-- One HTTP response: the `response.ok` flag and the decoded JSON body. -/
structure HttpResponse where
  ok : Bool
  body : ResponseBody
deriving DecidableEq, Repr

/-- The exception raised at src lines 56-58, carrying the failing page
number and the message/code interpolated into the exception text. -/
structure FetchError where
  pageNumber : Nat
  message : String
  code : Int
deriving DecidableEq, Repr

/-- The exception text of src line 57 (an f-string). -/
def FetchError.text (e : FetchError) : String :=
  "Unable to fetch page #" ++ toString e.pageNumber ++ ": " ++ e.message ++
    " | Error code: " ++ toString e.code

/-- Model of `question.pop("answer_count", 0)` (src line 76): returns the field value,
defaulting to `0` when absent, and removes the field from the dict.  When the
field is absent the dict is unchanged. -/
def popAnswerCount (q : Question) : Int × Question :=
  (q.answer_count.getD 0, { q with answer_count := none })

/-- Embedding of `is_answered` (src lines 73-76).  Returns the boolean together with the
question as mutated by the embedded `pop`. -/
def is_answered (q : Question) : Bool × Question :=
  let p := popAnswerCount q
  (decide (0 < p.1), p.2)

/-- Embedding of `remove_answered_questions` (src lines 78-80): `filter` keeps the
questions for which `is_answered` is false; since `is_answered` mutates the
question in place, the kept object is the mutated one. -/
def remove_answered_questions (questions : List Question) : List Question :=
  questions.filterMap fun q =>
    let r := is_answered q
    if r.1 then none else some r.2

/-- Insert a question into a list already sorted descending by `view_count`,
placing it after every element with a strictly larger key and before the
first element with a smaller-or-equal key.  Helper for `sortByViewCountDesc`. -/
def insertByViewCountDesc (q : Question) : List Question → List Question
  | [] => [q]
  | r :: rs =>
    if q.view_count < r.view_count then r :: insertByViewCountDesc q rs
    else q :: r :: rs

/-- Python's `sorted(questions, key=lambda q: q["view_count"], reverse=True)`
(src lines 84-86) is specified as a stable sort, descending by `view_count`:
elements with equal keys keep their relative input order.  A stable descending
sort's output is uniquely determined by that specification, so we embed it as
an insertion sort and prove sortedness, stability and permutation below. -/
def sortByViewCountDesc : List Question → List Question
  | [] => []
  | q :: qs => insertByViewCountDesc q (sortByViewCountDesc qs)

/-- Embedding of `get_top_n_questions_by_view_count` (src lines 82-87): stable descending
sort by `view_count`, then `sorted_questions[:n]`. -/
def get_top_n_questions_by_view_count (questions : List Question) (n : Nat) :
    List Question :=
  (sortByViewCountDesc questions).take n

/-- Ceiling division, embedding `math.ceil(total_question_count / page_size)` (src line 69) for
non-negative integers: ceiling division. -/
def totalPageCount (total page_size : Nat) : Nat :=
  (total + page_size - 1) / page_size

/-- Embedding of `fetch_top_n_unanswered_questions_async` (src lines 29-71), given the
decoded response for the requested page.  On a non-ok response it raises
(src lines 53-58); on success it filters out answered questions, keeps the
top `n` by view count, and returns them together with the remaining page
count `ceil(total / page_size) - page_number` (src lines 60-71). -/
def fetch_top_n_unanswered_questions_async (response : HttpResponse)
    (page_number : Nat) (n : Nat) (page_size : Nat := 100) :
    Except FetchError (List Question × Int) :=
  if ¬ response.ok then
    .error
      { pageNumber := page_number
        message := response.body.error_message.getD ("Something went wrong.")
        code := response.body.error_id.getD 500 }
  else
    let questions := response.body.items.getD []
    let unanswered_questions := remove_answered_questions questions
    let top_n_questions := get_top_n_questions_by_view_count unanswered_questions n
    let total_question_count := response.body.total.getD 0
    let total_page_count := totalPageCount total_question_count page_size
    let remaining_page_count : Int := (total_page_count : Int) - (page_number : Int)
    .ok (top_n_questions, remaining_page_count)

/-- Model of `asyncio.gather` over the fetches for the page numbers `ks`
(src lines 113-120).  `gather` without `return_exceptions` propagates the
first raised exception and discards the other results; we evaluate the
fetches in page-number order, so the first failing page in that order wins. -/
def gatherFetch (pages : Nat → HttpResponse) (n : Nat) :
    List Nat → Except FetchError (List (List Question × Int))
  | [] => .ok []
  | k :: ks =>
    match fetch_top_n_unanswered_questions_async (pages k) k n with
    | .error e => .error e
    | .ok r =>
      match gatherFetch pages n ks with
      | .error e => .error e
      | .ok rs => .ok (r :: rs)

/-- One round's batch width (src line 111):
`current_page_count = remaining_page_count % batch_size or batch_size` —
Python's `or` yields `batch_size` exactly when the remainder is `0`. -/
def batchWidth (remaining batch_size : Nat) : Nat :=
  if remaining % batch_size = 0 then batch_size else remaining % batch_size

/-- The `while remaining_page_count > 0` drain loop of the controller
(src lines 110-125), with the state `(top_n_questions, remaining_page_count,
page_number)` passed explicitly.  Each round takes this round's width `w`
(src line 111), decrements the remaining count (src line 112), gathers the
fetches of the next `w` consecutive page numbers (src lines 113-120), and
folds each page's result into the running list, re-truncating after each
page (src lines 121-125).

The loop is embedded with a `fuel` bound on the number of rounds: since
each round removes `w ≥ 1` pages when `batch_size ≥ 1`, `remaining.toNat`
rounds always suffice, which is how the caller instantiates `fuel`.
(For `batch_size = 0` the Python code raises `ZeroDivisionError` at
src line 111; every claim assumes a positive batch size.) -/
def drainLoop (pages : Nat → HttpResponse) (batch_size n : Nat) :
    Nat → List Question → Int → Nat → Except FetchError (List Question)
  | 0, top_n_questions, _, _ => .ok top_n_questions
  | fuel + 1, top_n_questions, remaining_page_count, page_number =>
    if remaining_page_count ≤ 0 then .ok top_n_questions
    else
      let w := batchWidth remaining_page_count.toNat batch_size
      match gatherFetch pages n (List.range' (page_number + 1) w) with
      | .error e => .error e
      | .ok coroutine_result =>
        let folded := coroutine_result.foldl
          (fun cur r => get_top_n_questions_by_view_count (cur ++ r.1) n) top_n_questions
        drainLoop pages batch_size n fuel folded (remaining_page_count - (w : Int))
          (page_number + w)

/-- Embedding of `StackOverflowController.get_top_n_unanswered_questions_async`
(src lines 94-126), with the HTTP layer abstracted as the oracle `pages`:
fetch page 1 alone, then drain the remaining pages in batches. -/
def get_top_n_unanswered_questions_async (pages : Nat → HttpResponse)
    (batch_size : Nat := 10) (n : Nat := 5) : Except FetchError (List Question) :=
  match fetch_top_n_unanswered_questions_async (pages 1) 1 n with
  | .error e => .error e
  | .ok (top_n_questions, remaining_page_count) =>
    drainLoop pages batch_size n remaining_page_count.toNat top_n_questions
      remaining_page_count 1

/-- The group structure of the drain loop (src lines 110-119), recorded as
the list of page-number groups fetched concurrently, one group per round:
each round fetches `batchWidth remaining batch_size` consecutive page
numbers starting right after the last used `page_number`.  This mirrors
`drainLoop` with the fetching and folding stripped out. -/
def drainSchedule (batch_size : Nat) : Nat → Nat → Nat → List (List Nat)
  | 0, _, _ => []
  | fuel + 1, remaining, page_number =>
    if remaining = 0 then []
    else
      let w := batchWidth remaining batch_size
      List.range' (page_number + 1) w ::
        drainSchedule batch_size fuel (remaining - w) (page_number + w)

/-- The number of filter-passing (unanswered) items on page `k` of the
oracle `pages`. -/
def passCount (pages : Nat → HttpResponse) (k : Nat) : Nat :=
  (remove_answered_questions ((pages k).body.items.getD [])).length

/-- The list of page numbers the controller fetches for the oracle `pages`:
page 1, then pages `2 .. totalPages` where `totalPages` is derived from
page 1's reported total (src lines 68-70 with `page_size = 100`). -/
def fetchedPages (pages : Nat → HttpResponse) : List Nat :=
  1 :: List.range' 2
    ((totalPageCount ((pages 1).body.total.getD 0) 100 : Int) - 1).toNat

/-- The descending order on questions induced by `view_count`. -/
def viewGE (a b : Question) : Prop := b.view_count ≤ a.view_count

/-- What a successful fetch of page `k` contributes to the merge: the top `n`
by view count of the page's unanswered questions (src lines 60-65). -/
def pageTopN (pages : Nat → HttpResponse) (n k : Nat) : List Question :=
  get_top_n_questions_by_view_count
    (remove_answered_questions ((pages k).body.items.getD [])) n

/-- The remaining page count reported by a successful fetch of page `k`
(src lines 67-70, with the controller's `page_size = 100`). -/
def remainingOf (pages : Nat → HttpResponse) (k : Nat) : Int :=
  (totalPageCount ((pages k).body.total.getD 0) 100 : Int) - (k : Int)

/-- The error a failing fetch of page `k` raises (src lines 53-58). -/
def pageError (pages : Nat → HttpResponse) (k : Nat) : FetchError :=
  { pageNumber := k
    message := (pages k).body.error_message.getD ("Something went wrong.")
    code := (pages k).body.error_id.getD 500 }

/-- Embedding of `get_week_ago_in_seconds` (src lines 14-17): the epoch-second timestamp
one week before `now`, modelling `datetime.now()` as the current epoch time
in seconds and `timedelta(days=7)` as `7 * 24 * 60 * 60` seconds. -/
def get_week_ago_in_seconds (now_seconds : Int) : Int :=
  now_seconds - 7 * 24 * 60 * 60

/-- The `from_date` default of the controller (src line 98):
`from_date: int = get_week_ago_in_seconds()` is a Python default argument,
so it is evaluated ONCE, when the `async def` is executed at class-definition
time.  Every later call that omits `from_date` reuses that frozen value: the
default actually used depends on `definition_time` and ignores `call_time`. -/
def controllerDefaultFromDate (definition_time : Int) (call_time : Int) : Int :=
  get_week_ago_in_seconds definition_time

/-- Modelled from the spec: the intended default (spec section 6 and the
design note in section 9) is "now minus 7 days, in epoch seconds, evaluated
per call", i.e. week-ago of the time of the call itself. -/
def specDefaultFromDate (call_time : Int) : Int :=
  get_week_ago_in_seconds call_time

/-! ### Concrete fixtures used by witnesses and counterexamples -/

/-- A question with the given `answer_count`, `view_count` and id. -/
def mkQuestion (ac : Option Int) (vc : Int) (id : Nat) : Question :=
  { answer_count := ac, view_count := vc, link := "", creation_date := 0
    question_id := id }

/-- A successful response reporting `total` matching questions and carrying
the given items. -/
def okResponse (total : Nat) (qs : List Question) : HttpResponse :=
  { ok := true
    body := { error_message := none, error_id := none, items := some qs
              total := some total } }

/-- A failing response whose body carries an error message and code. -/
def badResponse : HttpResponse :=
  { ok := false
    body := { error_message := some ("boom"), error_id := some 404
              items := none, total := none } }

/-- A three-page oracle where every page succeeds: page 1 reports
`total = 250` (hence 3 pages of size 100), and the pages carry a mix of
answered, unanswered and answer-count-free questions. -/
def goodOracle : Nat → HttpResponse := fun k =>
  if k = 1 then
    okResponse 250 [mkQuestion (some 0) 10 1, mkQuestion (some 2) 99 2,
      mkQuestion none 7 3]
  else if k = 2 then okResponse 250 [mkQuestion (some 0) 50 4]
  else okResponse 250 [mkQuestion none 20 5, mkQuestion (some 0) 30 6]

/-- The same oracle with page 3 failing. -/
def failingOracle : Nat → HttpResponse := fun k =>
  if k = 3 then badResponse else goodOracle k

/-! ### Lemmas about the stable descending sort -/

theorem insertByViewCountDesc_perm (q : Question) (l : List Question) :
    List.Perm (insertByViewCountDesc q l) (q :: l) := by
  induction l with
  | nil => exact List.Perm.refl _
  | cons r rs ih =>
    by_cases h : q.view_count < r.view_count
    · simp only [insertByViewCountDesc, if_pos h]
      exact (ih.cons r).trans (List.Perm.swap q r rs)
    · simp [insertByViewCountDesc, if_neg h]

theorem sortByViewCountDesc_perm (l : List Question) :
    List.Perm (sortByViewCountDesc l) l := by
  induction l with
  | nil => exact List.Perm.refl _
  | cons q qs ih =>
    exact (insertByViewCountDesc_perm q (sortByViewCountDesc qs)).trans (ih.cons q)

theorem length_sortByViewCountDesc (l : List Question) :
    (sortByViewCountDesc l).length = l.length :=
  (sortByViewCountDesc_perm l).length_eq

theorem pairwise_insertByViewCountDesc {q : Question} {l : List Question}
    (h : l.Pairwise viewGE) : (insertByViewCountDesc q l).Pairwise viewGE := by
  induction l with
  | nil => simp [insertByViewCountDesc, viewGE]
  | cons r rs ih =>
    rcases List.pairwise_cons.mp h with ⟨hr, hrs⟩
    by_cases hlt : q.view_count < r.view_count
    · simp only [insertByViewCountDesc, if_pos hlt]
      refine List.pairwise_cons.mpr ⟨?_, ih hrs⟩
      intro x hx
      rcases List.mem_cons.mp ((insertByViewCountDesc_perm q rs).mem_iff.mp hx) with
        hxq | hxm
      · subst hxq; exact le_of_lt hlt
      · exact hr x hxm
    · simp only [insertByViewCountDesc, if_neg hlt]
      push_neg at hlt
      refine List.pairwise_cons.mpr ⟨?_, h⟩
      intro x hx
      rcases List.mem_cons.mp hx with hxr | hxm
      · subst hxr; exact hlt
      · exact le_trans (hr x hxm) hlt

theorem pairwise_sortByViewCountDesc (l : List Question) :
    (sortByViewCountDesc l).Pairwise viewGE := by
  induction l with
  | nil => simp [sortByViewCountDesc]
  | cons q qs ih => exact pairwise_insertByViewCountDesc ih

/-- Stability of the insertion step:  restricted to any one key value `k`,
inserting `q` into `l` produces the same subsequence as prepending `q`. -/
theorem filter_insertByViewCountDesc (q : Question) (l : List Question) (k : Int) :
    (insertByViewCountDesc q l).filter (fun x => x.view_count == k) =
      (q :: l).filter (fun x => x.view_count == k) := by
  induction l with
  | nil => rfl
  | cons r rs ih =>
    by_cases hlt : q.view_count < r.view_count
    · simp only [insertByViewCountDesc, if_pos hlt]
      by_cases hq : q.view_count = k
      · have hr : (r.view_count == k) = false := by
          simp only [beq_eq_false_iff_ne, ne_eq]
          omega
        simp [List.filter_cons, hr, ih, hq]
      · have hq' : (q.view_count == k) = false := by
          simp only [beq_eq_false_iff_ne, ne_eq]
          exact hq
        simp [List.filter_cons, ih, hq']
    · simp only [insertByViewCountDesc, if_neg hlt]

/-- Stability of the sort:  restricted to any one key value `k`, the sorted
list has the same subsequence as the input — ties keep their input order. -/
theorem filter_sortByViewCountDesc (l : List Question) (k : Int) :
    (sortByViewCountDesc l).filter (fun x => x.view_count == k) =
      l.filter (fun x => x.view_count == k) := by
  induction l with
  | nil => rfl
  | cons q qs ih =>
    calc (insertByViewCountDesc q (sortByViewCountDesc qs)).filter
            (fun x => x.view_count == k)
        = (q :: sortByViewCountDesc qs).filter (fun x => x.view_count == k) :=
          filter_insertByViewCountDesc q (sortByViewCountDesc qs) k
      _ = (q :: qs).filter (fun x => x.view_count == k) := by
          simp only [List.filter_cons, ih]

/-- A list already sorted descending is a fixed point of the sort. -/
theorem sortByViewCountDesc_of_pairwise {l : List Question}
    (h : l.Pairwise viewGE) : sortByViewCountDesc l = l := by
  induction l with
  | nil => rfl
  | cons q qs ih =>
    rcases List.pairwise_cons.mp h with ⟨hq, hqs⟩
    rw [sortByViewCountDesc, ih hqs]
    cases qs with
    | nil => rfl
    | cons r rs =>
      have : ¬ q.view_count < r.view_count := not_lt.mpr (hq r (by simp))
      simp [insertByViewCountDesc, this]

theorem length_get_top_n (l : List Question) (n : Nat) :
    (get_top_n_questions_by_view_count l n).length = min n l.length := by
  rw [get_top_n_questions_by_view_count, List.length_take, length_sortByViewCountDesc]

theorem pairwise_get_top_n (l : List Question) (n : Nat) :
    (get_top_n_questions_by_view_count l n).Pairwise viewGE :=
  List.Pairwise.sublist (List.take_sublist n _) (pairwise_sortByViewCountDesc l)

/-! ### Lemmas about the fetch and drain loop -/

theorem fetch_eq_ok {resp : HttpResponse} (hok : resp.ok = true)
    (page_number n page_size : Nat) :
    fetch_top_n_unanswered_questions_async resp page_number n page_size =
      .ok (get_top_n_questions_by_view_count
            (remove_answered_questions (resp.body.items.getD [])) n,
          (totalPageCount (resp.body.total.getD 0) page_size : Int) -
            (page_number : Int)) := by
  simp [fetch_top_n_unanswered_questions_async, hok]

theorem fetch_eq_error {resp : HttpResponse} (hok : resp.ok = false)
    (page_number n page_size : Nat) :
    fetch_top_n_unanswered_questions_async resp page_number n page_size =
      .error
        { pageNumber := page_number
          message := resp.body.error_message.getD ("Something went wrong.")
          code := resp.body.error_id.getD 500 } := by
  simp [fetch_top_n_unanswered_questions_async, hok]

theorem gatherFetch_ok_elim {pages : Nat → HttpResponse} {n : Nat} :
    ∀ {ks : List Nat} {rs : List (List Question × Int)},
      gatherFetch pages n ks = .ok rs →
      (∀ k ∈ ks, (pages k).ok = true) ∧
        rs = ks.map fun k => (pageTopN pages n k, remainingOf pages k)
  | [], rs, h => by
    simp only [gatherFetch] at h
    cases h
    exact ⟨by simp, rfl⟩
  | k :: ks, rs, h => by
    cases hok : (pages k).ok with
    | false =>
      rw [gatherFetch, fetch_eq_error hok] at h
      cases h
    | true =>
      rw [gatherFetch, fetch_eq_ok hok] at h
      cases hrest : gatherFetch pages n ks with
      | error e => rw [hrest] at h; cases h
      | ok rest =>
        rw [hrest] at h
        cases h
        obtain ⟨hall, hmap⟩ := gatherFetch_ok_elim hrest
        refine ⟨?_, ?_⟩
        · intro j hj
          rcases List.mem_cons.mp hj with hj | hj
          · subst hj; exact hok
          · exact hall j hj
        · simp [hmap, pageTopN, remainingOf]

theorem gatherFetch_all_ok {pages : Nat → HttpResponse} {n : Nat} :
    ∀ {ks : List Nat}, (∀ k ∈ ks, (pages k).ok = true) →
      gatherFetch pages n ks =
        .ok (ks.map fun k => (pageTopN pages n k, remainingOf pages k))
  | [], _ => rfl
  | k :: ks, hall => by
    rw [gatherFetch, fetch_eq_ok (hall k (by simp)),
      gatherFetch_all_ok fun j hj => hall j (List.mem_cons_of_mem k hj)]
    simp [pageTopN, remainingOf]

/-- The gather step raises the error of the first failing page: if `k` fails and
every page of the group before `k` succeeds, the group's result is `k`'s
error. -/
theorem gatherFetch_range'_error {pages : Nat → HttpResponse} {n k : Nat}
    (hfail : (pages k).ok = false) :
    ∀ (s m : Nat), k ∈ List.range' s m →
      (∀ j, s ≤ j → j < k → (pages j).ok = true) →
      gatherFetch pages n (List.range' s m) = .error (pageError pages k)
  | s, 0, hmem, _ => by simp at hmem
  | s, m + 1, hmem, hbefore => by
    rw [List.range'_succ]
    by_cases hsk : s = k
    · subst hsk
      rw [gatherFetch, fetch_eq_error hfail]
      rfl
    · have hmem' : k = s ∨ s + 1 ≤ k ∧ k < s + 1 + m := by
        simpa [List.range'_succ] using hmem
      have hsk' : s < k := by omega
      rw [gatherFetch, fetch_eq_ok (hbefore s le_rfl hsk')]
      rw [gatherFetch_range'_error hfail (s + 1) m
        (List.mem_range'_1.mpr (by omega))
        fun j hj hjk => hbefore j (by omega) hjk]

/-- Folding pages into the running list (src lines 121-125) keeps the
invariant `length = min n (filter-passing items seen so far)`:  per-page
truncation never loses length towards the final `min`. -/
theorem foldl_merge_length {n : Nat} :
    ∀ {tops : List (List Question)} {ps : List Nat},
      List.Forall₂ (fun (t : List Question) (p : Nat) => t.length = min n p)
        tops ps →
      ∀ (acc : List Question) (S : Nat), acc.length = min n S →
      (List.foldl (fun cur t => get_top_n_questions_by_view_count (cur ++ t) n)
          acc tops).length = min n (S + ps.sum) := by
  intro tops ps h
  induction h with
  | nil => intro acc S hS; simpa using hS
  | cons ht hrest ih =>
    intro acc S hS
    rename_i t p tops' ps'
    simp only [List.foldl_cons, List.sum_cons]
    have hstep :
        (get_top_n_questions_by_view_count (acc ++ t) n).length = min n (S + p) := by
      rw [length_get_top_n, List.length_append, hS, ht]
      omega
    have := ih (get_top_n_questions_by_view_count (acc ++ t) n) (S + p) hstep
    rw [this]
    omega

theorem forall₂_pageTopN_length (pages : Nat → HttpResponse) (n : Nat) :
    ∀ (ks : List Nat),
      List.Forall₂ (fun (t : List Question) (p : Nat) => t.length = min n p)
        (ks.map (pageTopN pages n)) (ks.map (passCount pages))
  | [] => List.Forall₂.nil
  | k :: ks => by
    refine List.Forall₂.cons ?_ (forall₂_pageTopN_length pages n ks)
    rw [pageTopN, passCount, length_get_top_n]

theorem batchWidth_pos {r B : Nat} (hB : 0 < B) : 0 < batchWidth r B := by
  rw [batchWidth]
  by_cases h : r % B = 0
  · simpa [h] using hB
  · simpa [h] using Nat.pos_of_ne_zero h

theorem batchWidth_le {r B : Nat} (hB : 0 < B) (hr : 0 < r) :
    batchWidth r B ≤ r := by
  rw [batchWidth]
  by_cases h : r % B = 0
  · rw [if_pos h]
    by_contra hlt
    rw [Nat.mod_eq_of_lt (by omega)] at h
    omega
  · rw [if_neg h]
    exact Nat.mod_le r B

/-- Invariant of the drain loop (src lines 110-125):  when the loop returns
normally, the final list's length is `min n` of the running total of
filter-passing items, accumulated over the pages the loop fetched
(`page_number + 1 .. page_number + remaining`). -/
theorem drainLoop_ok_length {pages : Nat → HttpResponse} {B n : Nat}
    (hB : 0 < B) :
    ∀ (fuel : Nat) (remaining : Int) (acc : List Question) (p : Nat)
      (S : Nat) (res : List Question),
      remaining.toNat ≤ fuel →
      acc.length = min n S →
      drainLoop pages B n fuel acc remaining p = .ok res →
      res.length =
        min n (S + ((List.range' (p + 1) remaining.toNat).map
          (passCount pages)).sum)
  | 0, remaining, acc, p, S, res, hfuel, hacc, hrun => by
    have h0 : remaining.toNat = 0 := by omega
    rw [drainLoop] at hrun
    cases hrun
    simpa [h0] using hacc
  | fuel + 1, remaining, acc, p, S, res, hfuel, hacc, hrun => by
    rw [drainLoop] at hrun
    by_cases hneg : remaining ≤ 0
    · rw [if_pos hneg] at hrun
      cases hrun
      have h0 : remaining.toNat = 0 := by omega
      simpa [h0] using hacc
    · rw [if_neg hneg] at hrun
      simp only at hrun
      cases hgather : gatherFetch pages n
          (List.range' (p + 1) (batchWidth remaining.toNat B)) with
      | error e => rw [hgather] at hrun; cases hrun
      | ok rs =>
        rw [hgather] at hrun
        simp only at hrun
        obtain ⟨-, hmap⟩ := gatherFetch_ok_elim hgather
        set w := batchWidth remaining.toNat B with hw
        have hwpos : 0 < w := batchWidth_pos hB
        have hwle : w ≤ remaining.toNat := batchWidth_le hB (by omega)
        have hfold :
            (List.foldl
                (fun cur r => get_top_n_questions_by_view_count (cur ++ r.1) n)
                acc rs).length =
              min n (S + ((List.range' (p + 1) w).map (passCount pages)).sum) := by
          rw [hmap]
          have hcomp :
              List.foldl
                  (fun cur r => get_top_n_questions_by_view_count (cur ++ r.1) n)
                  acc ((List.range' (p + 1) w).map fun k =>
                    (pageTopN pages n k, remainingOf pages k)) =
                List.foldl
                  (fun cur t => get_top_n_questions_by_view_count (cur ++ t) n)
                  acc ((List.range' (p + 1) w).map (pageTopN pages n)) := by
            rw [List.foldl_map, List.foldl_map]
          rw [hcomp]
          exact foldl_merge_length (forall₂_pageTopN_length pages n _) acc S hacc
        have hrec := drainLoop_ok_length hB fuel (remaining - (w : Int)) _
          (p + w) (S + ((List.range' (p + 1) w).map (passCount pages)).sum) res
          (by omega) hfold hrun
        rw [hrec]
        have hsplit :
            List.range' (p + 1) w ++
                List.range' (p + 1 + w) (remaining - (w : Int)).toNat =
              List.range' (p + 1) remaining.toNat := by
          have : (remaining - (w : Int)).toNat = remaining.toNat - w := by omega
          rw [this, List.range'_append_1]
          congr 1
          omega
        rw [← hsplit, List.map_append, List.sum_append]
        have harr : p + w + 1 = p + 1 + w := by omega
        rw [harr]
        omega

/-- If the drain loop returns normally, every page it was asked to drain
responded ok: a failed fetch can never be skipped over. -/
theorem drainLoop_ok_pages {pages : Nat → HttpResponse} {B n : Nat}
    (hB : 0 < B) :
    ∀ (fuel : Nat) (remaining : Int) (acc : List Question) (p : Nat)
      (res : List Question),
      remaining.toNat ≤ fuel →
      drainLoop pages B n fuel acc remaining p = .ok res →
      ∀ k ∈ List.range' (p + 1) remaining.toNat, (pages k).ok = true
  | 0, remaining, acc, p, res, hfuel, hrun => by
    have h0 : remaining.toNat = 0 := by omega
    simp [h0]
  | fuel + 1, remaining, acc, p, res, hfuel, hrun => by
    rw [drainLoop] at hrun
    by_cases hneg : remaining ≤ 0
    · have h0 : remaining.toNat = 0 := by omega
      simp [h0]
    · rw [if_neg hneg] at hrun
      simp only at hrun
      cases hgather : gatherFetch pages n
          (List.range' (p + 1) (batchWidth remaining.toNat B)) with
      | error e => rw [hgather] at hrun; cases hrun
      | ok rs =>
        rw [hgather] at hrun
        simp only at hrun
        obtain ⟨hall, -⟩ := gatherFetch_ok_elim hgather
        set w := batchWidth remaining.toNat B with hw
        have hwpos : 0 < w := batchWidth_pos hB
        have hwle : w ≤ remaining.toNat := batchWidth_le hB (by omega)
        intro k hk
        have hrest := drainLoop_ok_pages hB fuel (remaining - (w : Int)) _
          (p + w) res (by omega) hrun
        rcases List.mem_range'_1.mp hk with ⟨hk1, hk2⟩
        by_cases hkw : k < p + 1 + w
        · exact hall k (List.mem_range'_1.mpr ⟨hk1, hkw⟩)
        · refine hrest k (List.mem_range'_1.mpr ⟨by omega, ?_⟩)
          have : (remaining - (w : Int)).toNat = remaining.toNat - w := by omega
          omega

/-- If page `k` is among the pages the drain loop fetches, `k`'s fetch
fails, and every drained page before `k` succeeds, the loop raises exactly
`k`'s error. -/
theorem drainLoop_error_first_fail {pages : Nat → HttpResponse} {B n k : Nat}
    (hB : 0 < B) (hfail : (pages k).ok = false) :
    ∀ (fuel : Nat) (remaining : Int) (acc : List Question) (p : Nat),
      remaining.toNat ≤ fuel →
      k ∈ List.range' (p + 1) remaining.toNat →
      (∀ j ∈ List.range' (p + 1) remaining.toNat, j < k → (pages j).ok = true) →
      drainLoop pages B n fuel acc remaining p = .error (pageError pages k)
  | 0, remaining, acc, p, hfuel, hmem, hmin => by
    have h0 : remaining.toNat = 0 := by omega
    rw [h0] at hmem
    simp at hmem
  | fuel + 1, remaining, acc, p, hfuel, hmem, hmin => by
    have hpos : ¬ remaining ≤ 0 := by
      intro hle
      have h0 : remaining.toNat = 0 := by omega
      rw [h0] at hmem
      simp at hmem
    rw [drainLoop, if_neg hpos]
    simp only
    set w := batchWidth remaining.toNat B with hw
    have hwpos : 0 < w := batchWidth_pos hB
    have hwle : w ≤ remaining.toNat := batchWidth_le hB (by omega)
    rcases List.mem_range'_1.mp hmem with ⟨hk1, hk2⟩
    by_cases hkw : k < p + 1 + w
    · rw [gatherFetch_range'_error hfail (p + 1) w
        (List.mem_range'_1.mpr ⟨hk1, hkw⟩)
        fun j hj hjk =>
          hmin j (List.mem_range'_1.mpr ⟨hj, by omega⟩) hjk]
    · have hallw : ∀ j ∈ List.range' (p + 1) w, (pages j).ok = true := by
        intro j hj
        rcases List.mem_range'_1.mp hj with ⟨hj1, hj2⟩
        exact hmin j (List.mem_range'_1.mpr ⟨hj1, by omega⟩) (by omega)
      rw [gatherFetch_all_ok hallw]
      simp only
      have htn : (remaining - (w : Int)).toNat = remaining.toNat - w := by omega
      refine drainLoop_error_first_fail hB hfail fuel (remaining - (w : Int)) _
        (p + w) (by omega) (List.mem_range'_1.mpr ⟨by omega, by omega⟩) ?_
      intro j hj hjk
      rcases List.mem_range'_1.mp hj with ⟨hj1, hj2⟩
      exact hmin j (List.mem_range'_1.mpr ⟨by omega, by omega⟩) hjk

/-! ### Lemmas about the drain schedule -/

/-- The pages drained, over all rounds, are exactly the consecutive page
numbers following `page_number`. -/
theorem drainSchedule_join {B : Nat} (hB : 0 < B) :
    ∀ (fuel r p : Nat), r ≤ fuel →
      (drainSchedule B fuel r p).flatten = List.range' (p + 1) r
  | 0, r, p, h => by
    have : r = 0 := by omega
    simp [drainSchedule, this]
  | fuel + 1, r, p, h => by
    by_cases hr : r = 0
    · simp [drainSchedule, hr]
    · rw [drainSchedule, if_neg hr]
      simp only [List.flatten_cons]
      have hwpos : 0 < batchWidth r B := batchWidth_pos hB
      have hwle : batchWidth r B ≤ r := batchWidth_le hB (by omega)
      rw [drainSchedule_join hB fuel (r - batchWidth r B)
        (p + batchWidth r B) (by omega)]
      have harr : p + batchWidth r B + 1 = p + 1 + batchWidth r B := by omega
      rw [harr, List.range'_append_1]
      congr 1
      omega

/-- Once the remaining page count is a multiple of `B`, every round drains
exactly `B` pages. -/
theorem drainSchedule_width_of_mod {B : Nat} (hB : 0 < B) :
    ∀ (fuel r p : Nat), r % B = 0 →
      ∀ g ∈ drainSchedule B fuel r p, g.length = B
  | 0, r, p, hmod => by simp [drainSchedule]
  | fuel + 1, r, p, hmod => by
    by_cases hr : r = 0
    · simp [drainSchedule, hr]
    · rw [drainSchedule, if_neg hr]
      intro g hg
      rcases List.mem_cons.mp hg with hg | hg
      · subst hg
        rw [List.length_range', batchWidth, if_pos hmod]
      · have hmod' : (r - batchWidth r B) % B = 0 := by
          rw [batchWidth, if_pos hmod]
          exact Nat.mod_eq_zero_of_dvd
            (Nat.dvd_sub' (Nat.dvd_of_mod_eq_zero hmod) dvd_rfl)
        exact drainSchedule_width_of_mod hB fuel (r - batchWidth r B)
          (p + batchWidth r B) hmod' g hg

/-! ### Membership and filter-predicate lemmas -/

theorem mem_of_mem_get_top_n {l : List Question} {n : Nat} {x : Question}
    (h : x ∈ get_top_n_questions_by_view_count l n) : x ∈ l :=
  (sortByViewCountDesc_perm l).mem_iff.mp ((List.take_sublist n _).subset h)

/-- Every question surviving the filter has had its `answer_count` field
removed (or never had one). -/
theorem answerCount_none_of_mem_remove {qs : List Question} {r : Question}
    (h : r ∈ remove_answered_questions qs) : r.answer_count = none := by
  rw [remove_answered_questions, List.mem_filterMap] at h
  obtain ⟨q, -, hq⟩ := h
  by_cases hb : (is_answered q).1
  · simp [hb] at hq
  · simp only [hb, if_neg, Bool.false_eq_true, if_false] at hq
    have h2 : (is_answered q).2.answer_count = none := rfl
    rw [Option.some_inj.mp hq] at h2
    exact h2

theorem answerCount_none_of_mem_pageTopN {pages : Nat → HttpResponse}
    {n k : Nat} {x : Question} (h : x ∈ pageTopN pages n k) :
    x.answer_count = none :=
  answerCount_none_of_mem_remove (mem_of_mem_get_top_n h)

/-- Elements of the drain fold come either from the running list or from
one of the folded page results. -/
theorem mem_foldl_merge {n : Nat} :
    ∀ (tops : List (List Question × Int)) (acc : List Question) (x : Question),
      x ∈ List.foldl
          (fun cur r => get_top_n_questions_by_view_count (cur ++ r.1) n)
          acc tops →
      x ∈ acc ∨ ∃ t ∈ tops, x ∈ t.1
  | [], acc, x, h => Or.inl h
  | t :: ts, acc, x, h => by
    rcases mem_foldl_merge ts _ x h with hx | ⟨t', ht', hxt⟩
    · rcases List.mem_append.mp (mem_of_mem_get_top_n hx) with hx | hx
      · exact Or.inl hx
      · exact Or.inr ⟨t, by simp, hx⟩
    · exact Or.inr ⟨t', List.mem_cons_of_mem t ht', hxt⟩

/-- If the drain loop returns normally starting from a running list whose
elements all have `answer_count` removed, the final list also consists only
of such elements (all folded page results pass through the filter). -/
theorem drainLoop_ok_answer_none {pages : Nat → HttpResponse} {B n : Nat} :
    ∀ (fuel : Nat) (remaining : Int) (acc : List Question) (p : Nat)
      (res : List Question),
      (∀ r ∈ acc, r.answer_count = none) →
      drainLoop pages B n fuel acc remaining p = .ok res →
      ∀ r ∈ res, r.answer_count = none
  | 0, remaining, acc, p, res, hacc, hrun => by
    rw [drainLoop] at hrun
    cases hrun
    exact hacc
  | fuel + 1, remaining, acc, p, res, hacc, hrun => by
    rw [drainLoop] at hrun
    by_cases hneg : remaining ≤ 0
    · rw [if_pos hneg] at hrun
      cases hrun
      exact hacc
    · rw [if_neg hneg] at hrun
      simp only at hrun
      cases hgather : gatherFetch pages n
          (List.range' (p + 1) (batchWidth remaining.toNat B)) with
      | error e => rw [hgather] at hrun; cases hrun
      | ok rs =>
        rw [hgather] at hrun
        simp only at hrun
        obtain ⟨-, hmap⟩ := gatherFetch_ok_elim hgather
        refine drainLoop_ok_answer_none fuel _ _ _ res ?_ hrun
        intro r hr
        rcases mem_foldl_merge rs acc r hr with hr | ⟨t, ht, hrt⟩
        · exact hacc r hr
        · rw [hmap] at ht
          rcases List.mem_map.mp ht with ⟨k, -, hk⟩
          exact answerCount_none_of_mem_pageTopN (hk ▸ hrt)

/-! ### The claims -/

/-- C4: a fetched question with `answer_count > 0` contributes nothing to
the surviving list (so it appears in no returned result), and every
question that does appear — in a filtered page or in a final result of the
whole retrieval — has had the `answer_count` field removed by the filter's
embedded `pop`. -/
theorem claim_C4 :
    (∀ (qs₁ qs₂ : List Question) (q : Question), 0 < q.answer_count.getD 0 →
      remove_answered_questions (qs₁ ++ q :: qs₂) =
        remove_answered_questions qs₁ ++ remove_answered_questions qs₂) ∧
    (∀ (qs : List Question), ∀ r ∈ remove_answered_questions qs,
      r.answer_count = none) ∧
    (∀ (pages : Nat → HttpResponse) (B n : Nat) (res : List Question),
      get_top_n_unanswered_questions_async pages B n = .ok res →
      ∀ r ∈ res, r.answer_count = none) := by
  refine ⟨?_, ?_, ?_⟩
  · intro qs₁ qs₂ q hq
    have hans : (is_answered q).1 = true := by
      simp [is_answered, popAnswerCount, hq]
    rw [remove_answered_questions, List.filterMap_append, List.filterMap_cons]
    simp only [hans, if_pos]
    rfl
  · intro qs r hr
    exact answerCount_none_of_mem_remove hr
  · intro pages B n res hrun r hr
    rw [get_top_n_unanswered_questions_async] at hrun
    cases hok : (pages 1).ok with
    | false => rw [fetch_eq_error hok] at hrun; cases hrun
    | true =>
      rw [fetch_eq_ok hok] at hrun
      simp only at hrun
      refine drainLoop_ok_answer_none _ _ _ _ res ?_ hrun r hr
      intro x hx
      exact answerCount_none_of_mem_remove (mem_of_mem_get_top_n hx)

/-- C10: a fetched question lacking the `answer_count` field entirely is
treated as unanswered (`pop` defaults the count to `0`): `is_answered`
returns `false` and the question passes through the filter unchanged, with
no field removed. -/
theorem claim_C10 (q : Question) (h : q.answer_count = none) :
    is_answered q = (false, q) ∧
    ∀ (qs₁ qs₂ : List Question),
      remove_answered_questions (qs₁ ++ q :: qs₂) =
        remove_answered_questions qs₁ ++
          q :: remove_answered_questions qs₂ := by
  obtain ⟨ac, vc, lk, cd, qid⟩ := q
  simp only [Question.mk.injEq] at h
  subst h
  refine ⟨rfl, ?_⟩
  intro qs₁ qs₂
  rw [remove_answered_questions, List.filterMap_append, List.filterMap_cons]
  rfl

/-- Witness for C10 at a concrete question with no `answer_count` field:
it is reported unanswered and kept in place, unchanged, while an answered
neighbour is dropped. -/
theorem claim_C10_witness :
    is_answered (mkQuestion none 7 3) = (false, mkQuestion none 7 3) ∧
    remove_answered_questions
        ([mkQuestion (some 1) 5 9] ++ mkQuestion none 7 3 :: []) =
      remove_answered_questions [mkQuestion (some 1) 5 9] ++
        mkQuestion none 7 3 :: remove_answered_questions [] :=
  ⟨(claim_C10 (mkQuestion none 7 3) rfl).1,
    (claim_C10 (mkQuestion none 7 3) rfl).2 [mkQuestion (some 1) 5 9] []⟩

/-- Filtering a prefix of a list yields a prefix of the filtered list. -/
theorem filter_take_exists_take_filter (p : Question → Bool)
    (l : List Question) (n : Nat) :
    ∃ m : Nat, (l.take n).filter p = (l.filter p).take m := by
  have h := List.take_left ((l.take n).filter p) ((l.drop n).filter p)
  rw [← List.filter_append, List.take_append_drop] at h
  exact ⟨((l.take n).filter p).length, h.symm⟩

/-- C3: the merge concatenates current and incoming, sorts descending by
`view_count` and truncates to the first `n`; the sort is stable (for every
key value, the output's subsequence of that key is a prefix of the
concatenated input's subsequence of that key, i.e. ties keep their input
order); hence adjacent result pairs are in non-increasing key order. -/
theorem claim_C3 (current incoming : List Question) (n : Nat) :
    get_top_n_questions_by_view_count (current ++ incoming) n =
      (sortByViewCountDesc (current ++ incoming)).take n ∧
    List.Chain' (fun a b => b.view_count ≤ a.view_count)
      (get_top_n_questions_by_view_count (current ++ incoming) n) ∧
    (∀ k : Int, (sortByViewCountDesc (current ++ incoming)).filter
        (fun q => q.view_count == k) =
      (current ++ incoming).filter (fun q => q.view_count == k)) ∧
    (∀ k : Int, ∃ m : Nat,
      (get_top_n_questions_by_view_count (current ++ incoming) n).filter
          (fun q => q.view_count == k) =
        ((current ++ incoming).filter (fun q => q.view_count == k)).take m) := by
  refine ⟨rfl, ?_, ?_, ?_⟩
  · exact List.Pairwise.chain' (pairwise_get_top_n (current ++ incoming) n)
  · intro k
    exact filter_sortByViewCountDesc (current ++ incoming) k
  · intro k
    rw [← filter_sortByViewCountDesc (current ++ incoming) k]
    exact filter_take_exists_take_filter (fun q => q.view_count == k)
      (sortByViewCountDesc (current ++ incoming)) n

/-- C8: re-merging an already-merged-and-truncated list with an empty
incoming sequence under the same `n` returns it unchanged: the merged list
is sorted (so the stable sort leaves it alone) and has length at most `n`
(so the truncation is a no-op). -/
theorem claim_C8 (X Y : List Question) (n : Nat) :
    get_top_n_questions_by_view_count
        (get_top_n_questions_by_view_count (X ++ Y) n ++ []) n =
      get_top_n_questions_by_view_count (X ++ Y) n := by
  rw [List.append_nil]
  have hsorted := pairwise_get_top_n (X ++ Y) n
  have hlen : (get_top_n_questions_by_view_count (X ++ Y) n).length ≤ n := by
    rw [length_get_top_n]; omega
  rw [get_top_n_questions_by_view_count, sortByViewCountDesc_of_pairwise hsorted,
    List.take_of_length_le hlen]

/-- C6: a fetch whose response has a non-success status fails with an error
identifying the failing page number and carrying the message and code taken
from the body's `error_message`/`error_id` fields, defaulting to
"Something went wrong." and `500` when absent; no items are returned. -/
theorem claim_C6 (resp : HttpResponse) (page_number n page_size : Nat)
    (h : resp.ok = false) :
    fetch_top_n_unanswered_questions_async resp page_number n page_size =
      .error
        { pageNumber := page_number
          message := resp.body.error_message.getD ("Something went wrong.")
          code := resp.body.error_id.getD 500 } ∧
    ∀ r, fetch_top_n_unanswered_questions_async resp page_number n page_size ≠
      .ok r := by
  refine ⟨fetch_eq_error h page_number n page_size, ?_⟩
  intro r hr
  rw [fetch_eq_error h page_number n page_size] at hr
  cases hr

/-- Witness for C6: a concrete failing response with body error fields. -/
theorem claim_C6_witness :
    fetch_top_n_unanswered_questions_async badResponse 3 5 100 =
      .error { pageNumber := 3, message := "boom", code := 404 } :=
  (claim_C6 badResponse 3 5 100 rfl).1

/-- Counterexample to C7 as stated: on a page whose two questions both
survive the filter, a fetch with `n = 1` returns a single question — not the
complete surviving sequence — and its second component is the remaining page
count `0`, not the page's total count and page size. -/
theorem claim_C7_counterexample :
    fetch_top_n_unanswered_questions_async
        (okResponse 100 [mkQuestion (some 0) 5 1, mkQuestion (some 0) 9 2])
        1 1 100 =
      .ok ([mkQuestion none 9 2], 0) ∧
    (remove_answered_questions
        ((okResponse 100 [mkQuestion (some 0) 5 1,
          mkQuestion (some 0) 9 2]).body.items.getD [])).length = 2 ∧
    ([mkQuestion none 9 2] : List Question).length ≠ 2 := by
  refine ⟨rfl, rfl, ?_⟩
  decide

/-- C7 amended: a successful page fetch returns the top `n` by view count of
the page's filter-surviving questions — a truncation of the surviving
sequence to at most `n` questions — together with the remaining page count
`ceil(totalCount / pageSize) - pageNumber`; `totalCount` and `pageSize`
themselves are not part of the return value. -/
theorem claim_C7 (resp : HttpResponse) (page_number n page_size : Nat)
    (h : resp.ok = true) :
    fetch_top_n_unanswered_questions_async resp page_number n page_size =
      .ok (get_top_n_questions_by_view_count
            (remove_answered_questions (resp.body.items.getD [])) n,
          (totalPageCount (resp.body.total.getD 0) page_size : Int) -
            (page_number : Int)) ∧
    (get_top_n_questions_by_view_count
        (remove_answered_questions (resp.body.items.getD [])) n).length =
      min n (remove_answered_questions (resp.body.items.getD [])).length :=
  ⟨fetch_eq_ok h page_number n page_size, length_get_top_n _ _⟩

/-- Witness for C7 (amended) at a concrete successful response. -/
theorem claim_C7_witness :
    fetch_top_n_unanswered_questions_async
        (okResponse 100 [mkQuestion (some 0) 5 1, mkQuestion (some 0) 9 2])
        1 1 100 =
      .ok (get_top_n_questions_by_view_count
            (remove_answered_questions
              ((okResponse 100 [mkQuestion (some 0) 5 1,
                mkQuestion (some 0) 9 2]).body.items.getD [])) 1,
          (totalPageCount ((okResponse 100 [mkQuestion (some 0) 5 1,
              mkQuestion (some 0) 9 2]).body.total.getD 0) 100 : Int) - 1) ∧
    (get_top_n_questions_by_view_count
        (remove_answered_questions
          ((okResponse 100 [mkQuestion (some 0) 5 1,
            mkQuestion (some 0) 9 2]).body.items.getD [])) 1).length =
      min 1 (remove_answered_questions
          ((okResponse 100 [mkQuestion (some 0) 5 1,
            mkQuestion (some 0) 9 2]).body.items.getD [])).length :=
  claim_C7 (okResponse 100 [mkQuestion (some 0) 5 1, mkQuestion (some 0) 9 2])
    1 1 100 rfl

/-- C9 fails on the code (code bug): the `from_date` default is the frozen
week-ago of the time the controller method was defined, not the week-ago of
the call.  Concretely, with the method defined at epoch second `0` and a
call at epoch second `1209600` (14 days later) omitting `from_date`, the
code queries from `-604800` while the claimed per-call default is `604800`. -/
theorem claim_C9 :
    controllerDefaultFromDate 0 1209600 = -604800 ∧
    specDefaultFromDate 1209600 = 604800 ∧
    controllerDefaultFromDate 0 1209600 ≠ specDefaultFromDate 1209600 := by
  refine ⟨rfl, rfl, ?_⟩
  decide

/-- C1: in the drain loop, each round's batch width is
`remainingPages mod B`, or `B` when that remainder is zero; hence for a
drain starting with `r` remaining pages the first group has the remainder
size, every subsequent group has exactly width `B`, and the drained page
numbers run consecutively from page 2 upward.  Concretely,
`totalCount = 350`, `pageSize = 100`, `B = 2` gives `totalPages = 4`,
3 remaining pages, and groups `[2]` then `[3, 4]`. -/
theorem claim_C1 (r B : Nat) (hB : 0 < B) (hr : 0 < r) :
    (∀ remaining : Nat, batchWidth remaining B =
      if remaining % B = 0 then B else remaining % B) ∧
    (drainSchedule B r r 1).head? =
      some (List.range' 2 (if r % B = 0 then B else r % B)) ∧
    (∀ g ∈ (drainSchedule B r r 1).tail, g.length = B) ∧
    (drainSchedule B r r 1).flatten = List.range' 2 r ∧
    (totalPageCount 350 100 = 4 ∧ drainSchedule 2 3 3 1 = [[2], [3, 4]]) := by
  obtain ⟨f, rfl⟩ : ∃ f, r = f + 1 := ⟨r - 1, by omega⟩
  refine ⟨fun remaining => rfl, ?_, ?_, ?_, rfl, rfl⟩
  · rw [drainSchedule, if_neg (by omega)]
    rfl
  · rw [drainSchedule, if_neg (by omega)]
    intro g hg
    have hmod : (f + 1 - batchWidth (f + 1) B) % B = 0 := by
      rw [batchWidth]
      by_cases h : (f + 1) % B = 0
      · rw [if_pos h]
        exact Nat.mod_eq_zero_of_dvd
          (Nat.dvd_sub' (Nat.dvd_of_mod_eq_zero h) dvd_rfl)
      · rw [if_neg h]
        have h1 := Nat.div_add_mod (f + 1) B
        exact Nat.mod_eq_zero_of_dvd
          ⟨(f + 1) / B, (Nat.eq_sub_of_add_eq h1).symm⟩
    exact drainSchedule_width_of_mod hB f (f + 1 - batchWidth (f + 1) B)
      (1 + batchWidth (f + 1) B) hmod g hg
  · exact drainSchedule_join hB (f + 1) (f + 1) 1 le_rfl

/-- Witness for C1 at the claim's concrete scenario: 3 remaining pages,
batch width 2. -/
theorem claim_C1_witness :
    (∀ remaining : Nat, batchWidth remaining 2 =
      if remaining % 2 = 0 then 2 else remaining % 2) ∧
    (drainSchedule 2 3 3 1).head? =
      some (List.range' 2 (if 3 % 2 = 0 then 2 else 3 % 2)) ∧
    (∀ g ∈ (drainSchedule 2 3 3 1).tail, g.length = 2) ∧
    (drainSchedule 2 3 3 1).flatten = List.range' 2 3 ∧
    (totalPageCount 350 100 = 4 ∧ drainSchedule 2 3 3 1 = [[2], [3, 4]]) :=
  claim_C1 3 2 (by decide) (by decide)

/-- C2: a retrieval that completes without error returns a list of length
at most `n`, and that length equals `min n` of the total number of
filter-passing questions across all fetched pages: the per-page truncation
inside the fetch never makes the final list shorter than this minimum. -/
theorem claim_C2 (pages : Nat → HttpResponse) (B n : Nat) (hB : 0 < B)
    (res : List Question)
    (h : get_top_n_unanswered_questions_async pages B n = .ok res) :
    res.length ≤ n ∧
    res.length = min n (((fetchedPages pages).map (passCount pages)).sum) := by
  rw [get_top_n_unanswered_questions_async] at h
  cases hok : (pages 1).ok with
  | false => rw [fetch_eq_error hok] at h; cases h
  | true =>
    rw [fetch_eq_ok hok] at h
    simp only at h
    have hlen := drainLoop_ok_length hB
      ((totalPageCount ((pages 1).body.total.getD 0) 100 : Int) - (1 : Int)).toNat
      ((totalPageCount ((pages 1).body.total.getD 0) 100 : Int) - (1 : Int))
      (get_top_n_questions_by_view_count
        (remove_answered_questions ((pages 1).body.items.getD [])) n)
      1 (passCount pages 1) res le_rfl
      (by rw [length_get_top_n]; rfl) h
    rw [fetchedPages, List.map_cons, List.sum_cons]
    constructor
    · rw [hlen]; omega
    · exact hlen

/-- Witness for C2 at a concrete three-page oracle: 5 questions pass the
filter overall and the retrieval with `n = 5` returns all of them. -/
theorem claim_C2_witness :
    ((get_top_n_unanswered_questions_async goodOracle 10 5).toOption.getD
      []).length ≤ 5 ∧
    ((get_top_n_unanswered_questions_async goodOracle 10 5).toOption.getD
        []).length =
      min 5 (((fetchedPages goodOracle).map (passCount goodOracle)).sum) :=
  claim_C2 goodOracle 10 5 (by decide) _ rfl

/-- C5: if a page fetch after page 1 fails — the page being among the pages
the retrieval drains — the whole retrieval returns no result list at all,
and (when the failing page is the first to fail in fetch order) it raises
exactly that page's error; no partial or best-effort result is produced. -/
theorem claim_C5 (pages : Nat → HttpResponse) (B n k : Nat) (hB : 0 < B)
    (h1 : (pages 1).ok = true) (hk : 2 ≤ k)
    (hmem : k ∈ fetchedPages pages) (hfail : (pages k).ok = false) :
    (∀ res, get_top_n_unanswered_questions_async pages B n ≠ .ok res) ∧
    ((∀ j ∈ fetchedPages pages, j < k → (pages j).ok = true) →
      get_top_n_unanswered_questions_async pages B n =
        .error (pageError pages k)) := by
  have hmem' : k ∈ List.range' 2
      ((totalPageCount ((pages 1).body.total.getD 0) 100 : Int) - 1).toNat := by
    rcases List.mem_cons.mp hmem with h | h
    · omega
    · exact h
  constructor
  · intro res hres
    rw [get_top_n_unanswered_questions_async, fetch_eq_ok h1] at hres
    simp only at hres
    have := drainLoop_ok_pages hB _ _ _ _ _ le_rfl hres k hmem'
    rw [hfail] at this
    cases this
  · intro hmin
    rw [get_top_n_unanswered_questions_async, fetch_eq_ok h1]
    simp only
    exact drainLoop_error_first_fail hB hfail _ _ _ 1 le_rfl hmem'
      fun j hj hjk => hmin j (List.mem_cons_of_mem 1 hj) hjk

/-- Witness for C5 at a concrete oracle whose page 3 fails while pages 1
and 2 succeed: the retrieval raises page 3's error. -/
theorem claim_C5_witness :
    get_top_n_unanswered_questions_async failingOracle 10 5 =
      .error (pageError failingOracle 3) :=
  (claim_C5 failingOracle 10 5 3 (by decide) rfl (by decide) (by decide)
    rfl).2 (by decide)
